import Mathlib

/-!
# Verification of the bookstack-cli directory-to-hierarchy import/export engine

Shallow embedding of the `ImportCommand` (src/commands/import, the variant with
`maxDepth`/`chapterFrom`/`flatten` options), the client utility `findBookByName`
(src/bookstack-client), and the `book export-contents` action with its `sanitize`
helper (src/bookstack-cli.ts).

Modelling conventions:
- JavaScript strings that may be `undefined` are modelled as `String` with `""`
  standing for the absent value; this is observationally faithful here because
  every use site tests them with JS truthiness (`x || y`, `if (x)`), under which
  `undefined` and `""` behave identically, or compares with `===` to a non-empty
  literal.
- String operations are implemented over `List Char` (via `String.data`) so that
  every definition is kernel-computable; character-set details follow the JS
  semantics at the granularity the program observes.
- The filesystem is an inductive tree of named files (with contents) and
  directories.  `fs.readdir` order is the listing order of the tree.
- The remote BookStack server is an external collaborator; its store is a state
  record, and the thin HTTP wrappers (`getBook`, `createBook`, `getChapters`,
  `createChapter`) are given the natural store semantics (fresh ids from a
  counter, created entities echo the supplied fields).  The repository-side
  logic (`findBookByName`, `getTargetBook`, `getOrCreateChapter`, the import
  passes) is translated from the source.
- `JSON.parse` of sidecar metadata and the `simpleMarkdownToHtml` regex chain
  are JS-builtin/string-rewriting details whose outputs are never inspected by
  the verified claims; they are abstracted as function parameters (`parseMeta`,
  `md2html`) and all theorems hold for every instantiation.
- Transport interactions are recorded as an event trace (`Ev`); invocations of
  `createPageInBook`/`createPageInChapter` are additionally recorded as
  bookkeeping events (`Ev.pageFn`) even in dry-run mode, so that count/execute
  parity can be stated about invocations rather than network calls.
-/

/-! ## Basic string helpers (JS semantics) -/

/-- JS `a || b` for strings, where `""` models both the empty string and
`undefined` (both falsy). -/
def jsOr (a b : String) : String :=
  if a = "" then b else a

/-- JS truthiness of an optional string: `some ""` and `none` are both falsy. -/
def truthyO : Option String → Option String
  | some "" => none
  | o => o

/-- Bool form of `truthyO`. -/
def truthyB (o : Option String) : Bool :=
  match truthyO o with
  | some _ => true
  | none => false

/-- Trim leading and trailing whitespace from a character list (JS `.trim()`). -/
def lcTrim (cs : List Char) : List Char :=
  ((cs.dropWhile Char.isWhitespace).reverse.dropWhile Char.isWhitespace).reverse

/-- JS `.trim()`. -/
def sTrim (s : String) : String :=
  String.mk (lcTrim s.data)

/-- JS `.toLowerCase()` (kernel-computable form of `String.toLower`). -/
def sToLower (s : String) : String :=
  String.mk (s.data.map Char.toLower)

/-- Worker for `wsRunsToDash`; the flag records whether the previous character
was whitespace (so only the first of a run emits the dash). -/
def wsRunsToDashAux : List Char → Bool → List Char
  | [], _ => []
  | c :: rest, prevWs =>
    if c.isWhitespace then
      (if prevWs then [] else ['-']) ++ wsRunsToDashAux rest true
    else c :: wsRunsToDashAux rest false

/-- Replace every maximal run of whitespace by a single `'-'` over characters
(JS `.replace(/\s+/g, '-')`). -/
def wsRunsToDash (cs : List Char) : List Char :=
  wsRunsToDashAux cs false

/-- `name.toLowerCase().replace(/\s+/g, '-')` — the slug derivation used by the
dry-run mock entities; also used as the modelled server-side slug generator. -/
def slugify (name : String) : String :=
  String.mk (wsRunsToDash (name.data.map Char.toLower))

/-- Suffix of a character list starting at its last `'.'`, if any. -/
def extSuffix : List Char → Option (List Char)
  | [] => none
  | '.' :: rest => (extSuffix rest).orElse (fun _ => some ('.' :: rest))
  | _ :: rest => extSuffix rest

/-- Node `path.extname` on a basename: extension from the last dot, where a dot
at index 0 does not start an extension. -/
def extname (s : String) : String :=
  match s.data with
  | [] => ""
  | _ :: rest =>
    match extSuffix rest with
    | some suf => String.mk suf
    | none => ""

/-- `path.basename(name, path.extname(name))`: the basename with its extension
removed. -/
def stripExt (s : String) : String :=
  String.mk (s.data.take (s.data.length - (extname s).data.length))

/-- `/^\d+$/.test(s)`. -/
def isNumericStr (s : String) : Bool :=
  !s.data.isEmpty && s.data.all Char.isDigit

/-- `parseInt` on an all-digit string. -/
def parseNatStr (s : String) : Nat :=
  s.data.foldl (fun n c => n * 10 + (c.toNat - 48)) 0

/-- `isSupportedFile` (src/commands/import): extension is one of
`.md .markdown .html .htm .txt`, case-insensitively. -/
def isSupportedFile (fileName : String) : Bool :=
  let ext := sToLower (extname fileName)
  ext ∈ [".md", ".markdown", ".html", ".htm", ".txt"]

/-- `detectFormat` (src/commands/import): `.md`/`.markdown` → markdown,
`.html`/`.htm` → html, anything else defaults to markdown. -/
def detectFormat (fileName : String) : String :=
  let ext := sToLower (extname fileName)
  if ext = ".md" ∨ ext = ".markdown" then "markdown"
  else if ext = ".html" ∨ ext = ".htm" then "html"
  else "markdown"

/-- One character of `escapeHtml`.  The source performs five sequential global
replacements (`& < > " '`); since no replacement text contains a character that
a later pass rewrites except those it inserts itself verbatim, the chain is
equivalent to this single per-character mapping. -/
def escapeChar : Char → List Char
  | '&' => "&amp;".data
  | '<' => "&lt;".data
  | '>' => "&gt;".data
  | '"' => "&quot;".data
  | '\'' => "&#39;".data
  | c => [c]

/-- `escapeHtml` (src/commands/import). -/
def escapeHtml (text : String) : String :=
  String.mk (text.data.foldr (fun c acc => escapeChar c ++ acc) [])

/-- `convertToHtml` (src/commands/import): html passes through, markdown goes
through the markdown transform (abstracted as `md2html`), anything else is
escaped into a `<pre>` block. -/
def convertToHtml (md2html : String → String) (content format : String) : String :=
  if format = "html" then content
  else if format = "markdown" then md2html content
  else "<pre>" ++ escapeHtml content ++ "</pre>"

/-! ## Filesystem model and the depth-bounded walker -/

/-- A named filesystem entry: a file with contents, or a directory with a
listing (in `fs.readdir` order). -/
inductive FSEntry where
  | file (name : String) (content : String)
  | dir (name : String) (entries : List FSEntry)

def FSEntry.isDir : FSEntry → Bool
  | .dir _ _ => true
  | _ => false

/-- A file emitted by the walker: the path segments of the directory that
contains it, its basename, and its contents. -/
structure WFile where
  dirPath : List String
  name : String
  content : String
deriving Repr, DecidableEq

mutual

/-- One step of `walkFiles.walk` (src/commands/import): a file at the current
level is always emitted; a directory is descended into only while the remaining
depth is positive. -/
def walkEntry (pre : List String) (d : Nat) : FSEntry → List WFile
  | .file n c => [⟨pre, n, c⟩]
  | .dir n sub => if 0 < d then walkList (pre ++ [n]) (d - 1) sub else []

/-- `walkFiles.walk` over a directory listing, in listing order. -/
def walkList (pre : List String) (d : Nat) : List FSEntry → List WFile
  | [] => []
  | e :: es => walkEntry pre d e ++ walkList pre d es

end

/-- `walkFiles(root, depth, onFile)` (src/commands/import): the walk starts at
`Math.max(0, depth)` remaining budget (`Int.toNat` is exactly that clamping).
Returns the emitted files in visit order. -/
def walkFiles (pre : List String) (depth : Int) (entries : List FSEntry) : List WFile :=
  walkList pre depth.toNat entries

example : walkFiles [] 1 [.dir "a" [.file "x.md" "1", .dir "b" [.file "y.md" "2"]], .file "r.md" "3"]
    = [⟨["a"], "x.md", "1"⟩, ⟨[], "r.md", "3"⟩] := by decide

example : extname "a.b.md" = ".md" := by decide
example : extname ".gitignore" = "" := by decide
example : stripExt "page.html" = "page" := by decide
example : isSupportedFile "A.MD" = true := by decide
example : isSupportedFile "a.png" = false := by decide
example : slugify "My  Book" = "my-book" := by decide
example : escapeHtml "a<b" = "a&lt;b" := by decide

/-! ## Remote store model, transport events, and the Remote Reconciler -/

/-- Remote Book resource (src/bookstack-client `Book`, fields the core reads). -/
structure RBook where
  id : Nat
  name : String
  slug : String
  description : String := ""
deriving Repr, DecidableEq

/-- Remote Chapter resource (src/bookstack-client `Chapter`, fields the core
reads). -/
structure RChapter where
  id : Nat
  book_id : Nat
  name : String
  description : String := ""
deriving Repr, DecidableEq

/-- Page payload sent to `createPage` (src/commands/import `pageData`). -/
structure PageData where
  book_id : Nat
  chapter_id : Option Nat := none
  name : String
  html : String
  markdown : Option String := none
deriving Repr, DecidableEq

/-- The remote store: the external collaborator's state.  Modelled naturally:
entities live in lists, and creations draw fresh ids from `nextId`. -/
structure Remote where
  books : List RBook
  chapters : List RChapter
  nextId : Nat
deriving Repr, DecidableEq

/-- Transport / bookkeeping events recorded by the embedded commands.
`pageFn` marks an invocation of `createPageInBook`/`createPageInChapter`
(it fires even in dry-run mode); all other constructors are client calls. -/
inductive Ev where
  | getBook (id : Nat)
  | getBooks
  | createBook (name description : String)
  | updateBook (id : Nat)
  | getChapters (bookId : Nat)
  | createChapter (bookId : Nat) (name : String)
  | createPage (pd : PageData)
  | pageFn (path : List String) (pd : PageData)
  | testConnection
deriving Repr, DecidableEq

/-- Create or update calls on the transport client (the calls a dry run must
not issue). -/
def Ev.isCreateOrUpdate : Ev → Bool
  | .createBook _ _ => true
  | .updateBook _ => true
  | .createChapter _ _ => true
  | .createPage _ => true
  | _ => false

/-- Create calls on the transport client. -/
def Ev.isCreate : Ev → Bool
  | .createBook _ _ => true
  | .createChapter _ _ => true
  | .createPage _ => true
  | _ => false

def Ev.isCreateChapter : Ev → Bool
  | .createChapter _ _ => true
  | _ => false

def Ev.isPageFn : Ev → Bool
  | .pageFn _ _ => true
  | _ => false

/-- The walker path of a `pageFn` event, if any. -/
def Ev.pageFnPath : Ev → Option (List String)
  | .pageFn p _ => some p
  | _ => none

/-- Paths of all Page-creation invocations in a trace. -/
def pageFnPaths (evs : List Ev) : List (List String) :=
  evs.filterMap Ev.pageFnPath

/-- Every page mentioned by the trace is Book-level (no chapter id). -/
def Ev.isBookLevel : Ev → Bool
  | .pageFn _ pd => pd.chapter_id = none
  | .createPage pd => pd.chapter_id = none
  | _ => true

/-- `GET /books/{id}` on the modelled store; `none` models the 404 the client
surfaces as a thrown error. -/
def getBookById (s : Remote) (id : Nat) : Option RBook :=
  s.books.find? (fun b => b.id = id)

/-- `findBookByName` (src/bookstack-client): case-insensitive match against the
name or slug of all existing books, first hit wins. -/
def findBookByName (s : Remote) (name : String) : Option RBook :=
  s.books.find? (fun b =>
    sToLower b.name = sToLower name ∨ sToLower b.slug = sToLower name)

/-- `getChapters` (src/bookstack-client): the chapters of one book. -/
def getChapters (s : Remote) (bookId : Nat) : List RChapter :=
  s.chapters.filter (fun c => c.book_id = bookId)

/-- Modelled `POST /books`: the store appends a book with a fresh id, echoing
the supplied name/description; slug generation is approximated by `slugify`. -/
def createBookOp (s : Remote) (name description : String) : RBook × Remote :=
  let b : RBook := { id := s.nextId, name := name, slug := slugify name, description := description }
  (b, { s with books := s.books ++ [b], nextId := s.nextId + 1 })

/-- Modelled `PUT /books/{id}` with a description payload. -/
def updateBookDescOp (s : Remote) (id : Nat) (description : String) : Remote :=
  { s with books := s.books.map (fun b => if b.id = id then { b with description := description } else b) }

/-- Modelled `POST /books/{bookId}/chapters`: fresh id, echoed fields. -/
def createChapterOp (s : Remote) (bookId : Nat) (name description : String) : RChapter × Remote :=
  let c : RChapter := { id := s.nextId, book_id := bookId, name := name, description := description }
  (c, { s with chapters := s.chapters ++ [c], nextId := s.nextId + 1 })

/-- The default description `getTargetBook` supplies on create. -/
def importBookDesc : String := "Book created by bookstack-cli import"

/-- `getTargetBook` (src/commands/import): dry-run returns a mock book; a
purely numeric name attempts an id lookup first, whose failure is swallowed;
then a case-insensitive name/slug search; on total miss the book is created
with a default description.  Returns the book, the post-state and the trace. -/
def getTargetBook (s : Remote) (bookName : String) (dryRun : Bool) :
    RBook × Remote × List Ev :=
  if dryRun then
    ({ id := 1, name := bookName, slug := slugify bookName }, s, [])
  else
    let idHit : Option RBook :=
      if isNumericStr bookName then getBookById s (parseNatStr bookName) else none
    let ev0 : List Ev :=
      if isNumericStr bookName then [Ev.getBook (parseNatStr bookName)] else []
    match idHit with
    | some b => (b, s, ev0)
    | none =>
      match findBookByName s bookName with
      | some b => (b, s, ev0 ++ [Ev.getBooks])
      | none =>
        let cr := createBookOp s bookName importBookDesc
        (cr.1, cr.2, ev0 ++ [Ev.getBooks, Ev.createBook bookName importBookDesc])

/-- `getOrCreateChapter` (src/commands/import): dry-run returns a mock chapter;
otherwise a case-insensitive name match against the book's chapters, creating
only on miss. -/
def getOrCreateChapter (s : Remote) (bookId : Nat) (name description : String)
    (dryRun : Bool) : RChapter × Remote × List Ev :=
  if dryRun then
    ({ id := 1, book_id := bookId, name := name }, s, [])
  else
    match (getChapters s bookId).find? (fun c => sToLower c.name = sToLower name) with
    | some c => (c, s, [Ev.getChapters bookId])
    | none =>
      let cr := createChapterOp s bookId name description
      (cr.1, cr.2, [Ev.getChapters bookId, Ev.createChapter bookId name])

/-! ## Metadata Resolver -/

/-- Sidecar metadata shape `{name?, description?}`. -/
structure Meta where
  name : Option String := none
  description : Option String := none
deriving Repr, DecidableEq

/-- Content of the file with the given exact name in a directory listing, if
present. -/
def findFile (entries : List FSEntry) (fileName : String) : Option String :=
  entries.findSome? (fun e =>
    match e with
    | .file n c => if n = fileName then some c else none
    | .dir _ _ => none)

/-- `readChapterMetadata` (src/commands/import): read `.chapter-metadata.json`
if present; a parse failure (modelled by `parseMeta` returning `none`) warns and
yields the empty metadata.  `parseMeta` abstracts `JSON.parse`. -/
def readChapterMetadata (parseMeta : String → Option Meta) (entries : List FSEntry) : Meta :=
  match findFile entries ".chapter-metadata.json" with
  | some content => (parseMeta content).getD {}
  | none => {}

/-- `readBookMetadata` (src/commands/import): same for `.book-metadata.json`
at the import root. -/
def readBookMetadata (parseMeta : String → Option Meta) (entries : List FSEntry) : Meta :=
  match findFile entries ".book-metadata.json" with
  | some content => (parseMeta content).getD {}
  | none => {}

/-- Split on newlines; lines keep any trailing `'\r'`, which is harmless since
every consumer trims or checks only a prefix. -/
def splitNl : List Char → List (List Char)
  | [] => [[]]
  | '\n' :: rest => [] :: splitNl rest
  | c :: rest =>
    match splitNl rest with
    | l :: ls => (c :: l) :: ls
    | [] => [[c]]

/-- Line-wise reading of the heading regex `^#{k}\s+(.+)$` (multiline): the
line starts with exactly the hashes, followed by at least one whitespace
character and at least one further character. -/
def isHeadingLine (k : Nat) (l : List Char) : Bool :=
  l.take k = List.replicate k '#' &&
    match l.drop k with
    | c :: rest => c.isWhitespace && !rest.isEmpty
    | [] => false

/-- The trimmed capture of the heading regex on a matching line: everything
after the hashes, trimmed (the source applies `.trim()` to `m[1]`). -/
def headingVal (k : Nat) (l : List Char) : String :=
  String.mk (lcTrim (l.drop k))

/-- Name extraction from one README-like file: first level-1 heading, else
first level-2, else first level-3, else the first non-blank line (trimmed);
`none` when the content yields nothing (all lines blank). -/
def extractName (content : String) : Option String :=
  let ls := splitNl content.data
  match ls.find? (isHeadingLine 1) with
  | some l => some (headingVal 1 l)
  | none =>
    match ls.find? (isHeadingLine 2) with
    | some l => some (headingVal 2 l)
    | none =>
      match ls.find? (isHeadingLine 3) with
      | some l => some (headingVal 3 l)
      | none => (ls.find? (fun l => !(lcTrim l).isEmpty)).map (fun l => String.mk (lcTrim l))

/-- The fixed ordered candidate list of `deriveNameFromReadme`. -/
def readmeCandidates : List String := ["README.md", "Readme.md", "readme.md", "index.md"]

/-- Candidate scan of `deriveNameFromReadme`: note that a present candidate
whose extraction fails falls through to the next candidate (the source loop has
no early `return undefined`). -/
def deriveAux (entries : List FSEntry) : List String → Option String
  | [] => none
  | cand :: rest =>
    match findFile entries cand with
    | some content =>
      match extractName content with
      | some v => some v
      | none => deriveAux entries rest
    | none => deriveAux entries rest

/-- `deriveNameFromReadme` (src/commands/import). -/
def deriveNameFromReadme (entries : List FSEntry) : Option String :=
  deriveAux entries readmeCandidates

/-! ## Import Orchestrator -/

/-- `ImportOptions` (src/commands/import).  String fields use `""` for the
absent value; `maxDepth` is `none` when not a finite number. -/
structure ImportOptions where
  book : String := ""
  format : String := ""
  dryRun : Bool := false
  maxDepth : Option Int := none
  chapterFrom : String := ""
  flatten : Bool := false
deriving Repr, DecidableEq

/-- `Number.isFinite(options.maxDepth) ? options.maxDepth : 10`. -/
def effMaxDepth (opts : ImportOptions) : Int :=
  opts.maxDepth.getD 10

/-- `options.chapterFrom || 'dir'`. -/
def effChapterFrom (opts : ImportOptions) : String :=
  jsOr opts.chapterFrom "dir"

/-- The `pageData` built by `createPageInBook`/`createPageInChapter`:
name is the extension-stripped basename, format is the explicit option or the
per-file detection, markdown is retained exactly when that format is
markdown. -/
def buildPage (md2html : String → String) (bookId : Nat) (chapter : Option Nat)
    (displayName content : String) (opts : ImportOptions) : PageData :=
  let fmt := jsOr opts.format (detectFormat displayName)
  { book_id := bookId
    chapter_id := chapter
    name := stripExt displayName
    html := convertToHtml md2html content fmt
    markdown := if fmt = "markdown" then some content else none }

/-- Events of one `createPageInBook`/`createPageInChapter` invocation: the
invocation marker always fires; the transport `createPage` call only outside
dry-run. -/
def createPageEvents (md2html : String → String) (bookId : Nat) (chapter : Option Nat)
    (path : List String) (displayName content : String) (opts : ImportOptions) : List Ev :=
  let pd := buildPage md2html bookId chapter displayName content opts
  Ev.pageFn path pd :: (if opts.dryRun then [] else [Ev.createPage pd])

/-- The root-directory pass of `importDirectory`: every supported file directly
in the root becomes a Book-level page. -/
def rootPass (md2html : String → String) (bookId : Nat) (opts : ImportOptions) :
    List FSEntry → List Ev
  | [] => []
  | .file n c :: es =>
    (if isSupportedFile n then createPageEvents md2html bookId none [n] n c opts else [])
      ++ rootPass md2html bookId opts es
  | .dir _ _ :: es => rootPass md2html bookId opts es

/-- Page events for the files emitted by one walk, in walk order (the walk
callbacks of `importDirectory`): unsupported files are skipped before the
invocation. -/
def pagesFromWalk (md2html : String → String) (bookId : Nat) (chapter : Option Nat)
    (opts : ImportOptions) : List WFile → List Ev
  | [] => []
  | w :: ws =>
    (if isSupportedFile w.name then
        createPageEvents md2html bookId chapter (w.dirPath ++ [w.name]) w.name w.content opts
      else [])
      ++ pagesFromWalk md2html bookId chapter opts ws

/-- Handling of one first-level entry in the subdirectory pass of
`importDirectory`: files are skipped (`continue`); in flatten mode the
subdirectory's files go directly under the book; otherwise the chapter name is
resolved (metadata name, then — under `chapterFrom: readme` — the README
derivation, then the directory basename), the chapter is reconciled, and the
walked files become chapter pages. -/
def subdirStep (md2html : String → String) (parseMeta : String → Option Meta)
    (bookId : Nat) (opts : ImportOptions) (e : FSEntry) (s : Remote) : List Ev × Remote :=
  match e with
  | .file _ _ => ([], s)
  | .dir dname sub =>
    if opts.flatten then
      (pagesFromWalk md2html bookId none opts (walkFiles [dname] (effMaxDepth opts - 1) sub), s)
    else
      let meta := readChapterMetadata parseMeta sub
      let chapterName :=
        match truthyO meta.name with
        | some n => n
        | none =>
          match (if effChapterFrom opts = "readme" then truthyO (deriveNameFromReadme sub) else none) with
          | some n => n
          | none => dname
      let cr := getOrCreateChapter s bookId chapterName (meta.description.getD "") opts.dryRun
      (cr.2.2 ++ pagesFromWalk md2html bookId (some cr.1.id) opts
          (walkFiles [dname] (effMaxDepth opts - 1) sub),
        cr.2.1)

/-- The subdirectory pass of `importDirectory`, threading the remote state in
listing order. -/
def subdirPass (md2html : String → String) (parseMeta : String → Option Meta)
    (bookId : Nat) (opts : ImportOptions) : List FSEntry → Remote → List Ev × Remote
  | [], s => ([], s)
  | e :: es, s =>
    let r1 := subdirStep md2html parseMeta bookId opts e s
    let r2 := subdirPass md2html parseMeta bookId opts es r1.2
    (r1.1 ++ r2.1, r2.2)

/-- `countFiles` (src/commands/import): the count pass — supported files in the
root, plus, per first-level subdirectory, the supported files emitted by the
same bounded walk the execute pass uses.  Performs no remote calls. -/
def countFiles (entries : List FSEntry) (opts : ImportOptions) : Nat :=
  (entries.countP (fun e =>
      match e with
      | .file n _ => isSupportedFile n
      | .dir _ _ => false)) +
    entries.foldr
      (fun e acc =>
        match e with
        | .dir dname sub =>
          (walkFiles [dname] (effMaxDepth opts - 1) sub).countP (fun w => isSupportedFile w.name) + acc
        | .file _ _ => acc)
      0

/-- `importDirectory` (src/commands/import): resolve the target book (metadata
name fallback chain), optionally push the sidecar description (non-dry-run
only; failures swallowed), then the root pass and the subdirectory pass.  The
count pass sizes the progress bar and performs no remote calls, so it
contributes no events. -/
def importDirectory (md2html : String → String) (parseMeta : String → Option Meta)
    (s : Remote) (dirName : String) (entries : List FSEntry) (opts : ImportOptions) :
    List Ev × Remote :=
  let bookMeta := readBookMetadata parseMeta entries
  let bookName := jsOr opts.book (jsOr ((truthyO bookMeta.name).getD "") dirName)
  let tb := getTargetBook s bookName opts.dryRun
  let doUpd := !opts.dryRun && truthyB bookMeta.description
  let ev2 : List Ev := if doUpd then [Ev.updateBook tb.1.id] else []
  let s2 :=
    if doUpd then updateBookDescOp tb.2.1 tb.1.id (bookMeta.description.getD "") else tb.2.1
  let sp := subdirPass md2html parseMeta tb.1.id opts entries s2
  (tb.2.2 ++ ev2 ++ rootPass md2html tb.1.id opts entries ++ sp.1, sp.2)

/-- The `pageData` built by `importFile` (src/commands/import): the format is
the explicit option or the literal default `'markdown'` — `detectFormat` is not
consulted — and the markdown field is kept only under an explicit
`format === 'markdown'`. -/
def importFilePageData (md2html : String → String) (bookId : Nat)
    (fileName content : String) (opts : ImportOptions) : PageData :=
  { book_id := bookId
    chapter_id := none
    name := fileName
    html := convertToHtml md2html content (jsOr opts.format "markdown")
    markdown := if opts.format = "markdown" then some content else none }

/-- `importFile` (src/commands/import): single-file import — the
extension-stripped basename doubles as page name and (absent `--book`) book
name. -/
def importFile (md2html : String → String) (s : Remote) (fileBase content : String)
    (opts : ImportOptions) : List Ev × Remote :=
  let fileName := stripExt fileBase
  let tb := getTargetBook s (jsOr opts.book fileName) opts.dryRun
  let pd := importFilePageData md2html tb.1.id fileName content opts
  (tb.2.2 ++ (if opts.dryRun then [] else [Ev.createPage pd]), tb.2.1)

/-- `ImportCommand.execute` (src/commands/import): connectivity check (skipped
in dry-run; assumed successful here), then the file or directory path. -/
def executeImport (md2html : String → String) (parseMeta : String → Option Meta)
    (s : Remote) (source : FSEntry) (opts : ImportOptions) : List Ev × Remote :=
  let evConn : List Ev := if opts.dryRun then [] else [Ev.testConnection]
  match source with
  | .file n c =>
    let r := importFile md2html s n c opts
    (evConn ++ r.1, r.2)
  | .dir n entries =>
    let r := importDirectory md2html parseMeta s n entries opts
    (evConn ++ r.1, r.2)

/-! ## Export Mirror -/

/-- A page node of a book contents tree as the export action reads it. -/
structure ExPage where
  id : Nat
  slug : String
  name : String
deriving Repr, DecidableEq

/-- One item of `book.contents`: the action filters by the `type` tag, which is
the constructor here. -/
inductive ExItem where
  | page (p : ExPage)
  | chapter (id : Nat) (slug name : String) (pages : List ExPage)
deriving Repr, DecidableEq

/-- A book with its contents tree as returned for export. -/
structure ExBook where
  id : Nat
  slug : String
  name : String
  contents : List ExItem
deriving Repr, DecidableEq

/-- Characters kept by `sanitize` (the complement of `[^a-zA-Z0-9-_.\s]`). -/
def sanitizeKeep (c : Char) : Bool :=
  ('a' ≤ c && c ≤ 'z') || ('A' ≤ c && c ≤ 'Z') || ('0' ≤ c && c ≤ '9') ||
    c = '-' || c = '_' || c = '.' || c.isWhitespace

/-- `sanitize` (src/bookstack-cli.ts): strip to a conservative character set,
trim, collapse whitespace runs to hyphens, lowercase, truncate to 100
characters.  (`normalize("NFKD")` is the identity on the ASCII output
alphabet the filter keeps.) -/
def sanitize (input : String) : String :=
  String.mk
    ((wsRunsToDash (lcTrim (input.data.filter sanitizeKeep))).map Char.toLower |>.take 100)

/-- Extension for an export format (src/bookstack-cli.ts):
`plaintext → txt`, `markdown → md`, otherwise `html`. -/
def extOf (fmt : String) : String :=
  if fmt = "plaintext" then "txt" else if fmt = "markdown" then "md" else "html"

def ExItem.pageNode : ExItem → Option ExPage
  | .page p => some p
  | _ => none

def ExItem.chapterNode : ExItem → Option (Nat × String × String × List ExPage)
  | .chapter id slug name pages => some (id, slug, name, pages)
  | _ => none

/-- The files written by the `book export-contents` action, in write order:
top-level pages under the output root, then each chapter's pages under its
chapter directory.  Filenames are `sanitize(slug || name)-{id}.{ext}`; the
output root defaults to `./{book.slug || 'book-' + id}`.  Path joining is
modelled as `/`-concatenation (Node `path.join` additionally normalizes the
leading `./`, which denotes the same file). -/
def exportPaths (book : ExBook) (dirOpt : String) (fmt0 : String) : List String :=
  let fmt := sToLower fmt0
  let slug := jsOr book.slug ("book-" ++ toString book.id)
  let outRoot := jsOr dirOpt ("./" ++ slug)
  let ext := extOf fmt
  let pages := book.contents.filterMap ExItem.pageNode
  let chapters := book.contents.filterMap ExItem.chapterNode
  pages.map (fun p => outRoot ++ "/" ++ sanitize (jsOr p.slug p.name) ++ "-" ++ toString p.id ++ "." ++ ext)
    ++ chapters.flatMap (fun ch =>
      let chDir := outRoot ++ "/" ++ sanitize (jsOr ch.2.1 ch.2.2.1) ++ "-" ++ toString ch.1
      ch.2.2.2.map (fun p =>
        chDir ++ "/" ++ sanitize (jsOr p.slug p.name) ++ "-" ++ toString p.id ++ "." ++ ext))

example : sanitize "Ch One  x" = "ch-one-x" := by decide
example : extOf "markdown" = "md" := by decide


/-! ## Trace lemmas -/

/-- Expected Book-level page paths from the root pass: one per supported file
directly in the root. -/
def rootPaths : List FSEntry → List (List String)
  | [] => []
  | .file n _ :: es => (if isSupportedFile n then [[n]] else []) ++ rootPaths es
  | .dir _ _ :: es => rootPaths es

/-- Supported-page paths contributed by the bounded walk of one first-level
subdirectory. -/
def wPaths (d : Int) (dname : String) (sub : List FSEntry) : List (List String) :=
  (walkFiles [dname] d sub).filterMap
    (fun w => if isSupportedFile w.name then some (w.dirPath ++ [w.name]) else none)

/-- Expected page paths from the subdirectory pass. -/
def dirsPaths (d : Int) : List FSEntry → List (List String)
  | [] => []
  | .dir dname sub :: es => wPaths d dname sub ++ dirsPaths d es
  | .file _ _ :: es => dirsPaths d es

theorem pageFnPaths_append (l₁ l₂ : List Ev) :
    pageFnPaths (l₁ ++ l₂) = pageFnPaths l₁ ++ pageFnPaths l₂ := by
  simp [pageFnPaths]

theorem pageFnPaths_createPageEvents (md2html : String → String) (bookId : Nat)
    (chapter : Option Nat) (path : List String) (displayName content : String)
    (opts : ImportOptions) :
    pageFnPaths (createPageEvents md2html bookId chapter path displayName content opts)
      = [path] := by
  unfold createPageEvents pageFnPaths
  split <;> simp [Ev.pageFnPath]

theorem pageFnPaths_getTargetBook (s : Remote) (bookName : String) (dryRun : Bool) :
    pageFnPaths (getTargetBook s bookName dryRun).2.2 = [] := by
  unfold getTargetBook
  split
  · rfl
  · by_cases hn : isNumericStr bookName = true
    · simp only [hn, if_true]
      cases hgb : getBookById s (parseNatStr bookName) with
      | some b => simp [pageFnPaths, Ev.pageFnPath]
      | none =>
        cases hfb : findBookByName s bookName <;>
          simp [hfb, pageFnPaths, Ev.pageFnPath]
    · simp only [hn, if_false]
      cases hfb : findBookByName s bookName <;>
        simp [hfb, pageFnPaths, Ev.pageFnPath]

theorem pageFnPaths_getOrCreateChapter (s : Remote) (bookId : Nat)
    (name description : String) (dryRun : Bool) :
    pageFnPaths (getOrCreateChapter s bookId name description dryRun).2.2 = [] := by
  unfold getOrCreateChapter
  split
  · rfl
  · split <;> simp [pageFnPaths, Ev.pageFnPath]

theorem pageFnPaths_rootPass (md2html : String → String) (bookId : Nat)
    (opts : ImportOptions) (entries : List FSEntry) :
    pageFnPaths (rootPass md2html bookId opts entries) = rootPaths entries := by
  induction entries with
  | nil => rfl
  | cons e es ih =>
    cases e with
    | file n c =>
      by_cases h : isSupportedFile n = true <;>
        simp [rootPass, rootPaths, h, pageFnPaths_append, pageFnPaths_createPageEvents, ih]
    | dir n sub =>
      simpa [rootPass, rootPaths] using ih

theorem pageFnPaths_pagesFromWalk (md2html : String → String) (bookId : Nat)
    (chapter : Option Nat) (opts : ImportOptions) (ws : List WFile) :
    pageFnPaths (pagesFromWalk md2html bookId chapter opts ws)
      = ws.filterMap (fun w =>
          if isSupportedFile w.name then some (w.dirPath ++ [w.name]) else none) := by
  induction ws with
  | nil => rfl
  | cons w ws ih =>
    by_cases h : isSupportedFile w.name = true <;>
      simp [pagesFromWalk, h, pageFnPaths_append, pageFnPaths_createPageEvents, ih]

theorem pageFnPaths_subdirPass (md2html : String → String)
    (parseMeta : String → Option Meta) (bookId : Nat) (opts : ImportOptions)
    (entries : List FSEntry) : ∀ s : Remote,
    pageFnPaths (subdirPass md2html parseMeta bookId opts entries s).1
      = dirsPaths (effMaxDepth opts - 1) entries := by
  induction entries with
  | nil => intro s; rfl
  | cons e es ih =>
    intro s
    cases e with
    | file n c =>
      simpa [subdirPass, subdirStep, dirsPaths] using ih _
    | dir dname sub =>
      by_cases hf : opts.flatten = true
      · simp [subdirPass, subdirStep, hf, dirsPaths, pageFnPaths_append,
          pageFnPaths_pagesFromWalk, ih, wPaths]
      · simp [subdirPass, subdirStep, hf, dirsPaths, pageFnPaths_append,
          pageFnPaths_getOrCreateChapter, pageFnPaths_pagesFromWalk, ih, wPaths]

theorem pageFnPaths_importDirectory (md2html : String → String)
    (parseMeta : String → Option Meta) (s : Remote) (dirName : String)
    (entries : List FSEntry) (opts : ImportOptions) :
    pageFnPaths (importDirectory md2html parseMeta s dirName entries opts).1
      = rootPaths entries ++ dirsPaths (effMaxDepth opts - 1) entries := by
  unfold importDirectory
  simp only [pageFnPaths_append, pageFnPaths_getTargetBook, pageFnPaths_rootPass,
    pageFnPaths_subdirPass]
  split <;> simp [pageFnPaths, Ev.pageFnPath]

theorem countP_isPageFn_eq_length (l : List Ev) :
    l.countP Ev.isPageFn = (pageFnPaths l).length := by
  induction l with
  | nil => rfl
  | cons e l ih =>
    cases e <;> simp [pageFnPaths, Ev.pageFnPath, Ev.isPageFn, List.countP_cons, ih]

theorem length_filterMap_ite {α β : Type} (p : α → Bool) (f : α → β) (l : List α) :
    (l.filterMap fun a => if p a then some (f a) else none).length = l.countP p := by
  induction l with
  | nil => rfl
  | cons a l ih => by_cases h : p a = true <;> simp [h, List.countP_cons, ih]

theorem rootPaths_length (entries : List FSEntry) :
    (rootPaths entries).length
      = entries.countP (fun e =>
          match e with
          | .file n _ => isSupportedFile n
          | .dir _ _ => false) := by
  induction entries with
  | nil => rfl
  | cons e es ih =>
    cases e with
    | file n c =>
      by_cases h : isSupportedFile n = true <;> simp [rootPaths, h, List.countP_cons, ih]
    | dir n sub => simp [rootPaths, List.countP_cons, ih]

theorem dirsPaths_length (d : Int) (entries : List FSEntry) :
    (dirsPaths d entries).length
      = entries.foldr
          (fun e acc =>
            match e with
            | .dir dname sub =>
              (walkFiles [dname] d sub).countP (fun w => isSupportedFile w.name) + acc
            | .file _ _ => acc)
          0 := by
  induction entries with
  | nil => rfl
  | cons e es ih =>
    cases e with
    | file n c => simpa [dirsPaths] using ih
    | dir dname sub => simp [dirsPaths, wPaths, length_filterMap_ite, ih]

/-- **C1.** For every directory tree and fixed options (in particular fixed
flatten and maxDepth), the number returned by the count pass `countFiles`
equals the number of Page-creation invocations
(`createPageInBook` + `createPageInChapter`, recorded as `Ev.pageFn`)
performed by the execute pass `importDirectory` over the same tree. -/
theorem count_execute_page_parity (md2html : String → String)
    (parseMeta : String → Option Meta) (s : Remote) (dirName : String)
    (entries : List FSEntry) (opts : ImportOptions) :
    ((importDirectory md2html parseMeta s dirName entries opts).1.countP Ev.isPageFn)
      = countFiles entries opts := by
  rw [countP_isPageFn_eq_length, pageFnPaths_importDirectory]
  simp [rootPaths_length, dirsPaths_length, countFiles]

/-! ## Dry-run lemmas -/

theorem getTargetBook_dryRun (s : Remote) (bookName : String) :
    getTargetBook s bookName true
      = ({ id := 1, name := bookName, slug := slugify bookName }, s, []) := rfl

theorem getOrCreateChapter_dryRun (s : Remote) (bookId : Nat) (name description : String) :
    getOrCreateChapter s bookId name description true
      = ({ id := 1, book_id := bookId, name := name }, s, []) := rfl

theorem createPageEvents_dryRun (md2html : String → String) (bookId : Nat)
    (chapter : Option Nat) (path : List String) (displayName content : String)
    (opts : ImportOptions) (h : opts.dryRun = true) :
    createPageEvents md2html bookId chapter path displayName content opts
      = [Ev.pageFn path (buildPage md2html bookId chapter displayName content opts)] := by
  simp [createPageEvents, h]

theorem rootPass_dryRun_noCU (md2html : String → String) (bookId : Nat)
    (opts : ImportOptions) (h : opts.dryRun = true) (entries : List FSEntry) :
    (rootPass md2html bookId opts entries).countP Ev.isCreateOrUpdate = 0 := by
  induction entries with
  | nil => rfl
  | cons e es ih =>
    cases e with
    | file n c =>
      by_cases hs : isSupportedFile n = true <;>
        simp [rootPass, hs, createPageEvents_dryRun _ _ _ _ _ _ _ h,
          List.countP_cons, Ev.isCreateOrUpdate, ih]
    | dir n sub => simpa [rootPass] using ih

theorem pagesFromWalk_dryRun_noCU (md2html : String → String) (bookId : Nat)
    (chapter : Option Nat) (opts : ImportOptions) (h : opts.dryRun = true)
    (ws : List WFile) :
    (pagesFromWalk md2html bookId chapter opts ws).countP Ev.isCreateOrUpdate = 0 := by
  induction ws with
  | nil => rfl
  | cons w ws ih =>
    by_cases hs : isSupportedFile w.name = true <;>
      simp [pagesFromWalk, hs, createPageEvents_dryRun _ _ _ _ _ _ _ h,
        List.countP_cons, Ev.isCreateOrUpdate, ih]

theorem subdirStep_dryRun (md2html : String → String) (parseMeta : String → Option Meta)
    (bookId : Nat) (opts : ImportOptions) (h : opts.dryRun = true) (e : FSEntry) (s : Remote) :
    (subdirStep md2html parseMeta bookId opts e s).2 = s
    ∧ (subdirStep md2html parseMeta bookId opts e s).1.countP Ev.isCreateOrUpdate = 0 := by
  cases e with
  | file n c => exact ⟨rfl, rfl⟩
  | dir dname sub =>
    by_cases hf : opts.flatten = true
    · simp [subdirStep, hf, pagesFromWalk_dryRun_noCU _ _ _ _ h]
    · simp [subdirStep, hf, h, getOrCreateChapter_dryRun,
        pagesFromWalk_dryRun_noCU _ _ _ _ h]

theorem subdirPass_dryRun (md2html : String → String) (parseMeta : String → Option Meta)
    (bookId : Nat) (opts : ImportOptions) (h : opts.dryRun = true) (entries : List FSEntry) :
    ∀ s : Remote,
      (subdirPass md2html parseMeta bookId opts entries s).2 = s
      ∧ (subdirPass md2html parseMeta bookId opts entries s).1.countP Ev.isCreateOrUpdate = 0 := by
  induction entries with
  | nil => intro s; exact ⟨rfl, rfl⟩
  | cons e es ih =>
    intro s
    have hstep := subdirStep_dryRun md2html parseMeta bookId opts h e s
    have hrest := ih (subdirStep md2html parseMeta bookId opts e s).2
    constructor
    · show (subdirPass md2html parseMeta bookId opts es
        (subdirStep md2html parseMeta bookId opts e s).2).2 = s
      rw [hrest.1, hstep.1]
    · show ((subdirStep md2html parseMeta bookId opts e s).1
          ++ (subdirPass md2html parseMeta bookId opts es
                (subdirStep md2html parseMeta bookId opts e s).2).1).countP
            Ev.isCreateOrUpdate = 0
      rw [List.countP_append, hstep.2, hrest.2]

theorem importDirectory_dryRun (md2html : String → String)
    (parseMeta : String → Option Meta) (s : Remote) (dirName : String)
    (entries : List FSEntry) (opts : ImportOptions) (h : opts.dryRun = true) :
    importDirectory md2html parseMeta s dirName entries opts
      = (rootPass md2html 1 opts entries
          ++ (subdirPass md2html parseMeta 1 opts entries s).1,
         (subdirPass md2html parseMeta 1 opts entries s).2) := by
  unfold importDirectory
  rw [h]
  simp [getTargetBook_dryRun]

/-- **C2.** For every source input (file or directory tree) and every option
combination with `dryRun` set, `ImportCommand.execute` issues zero create or
update calls (`createBook`, `createChapter`, `createPage`, `updateBook`) on the
transport client, and the remote store state is unchanged. -/
theorem dry_run_issues_no_writes (md2html : String → String)
    (parseMeta : String → Option Meta) (s : Remote) (source : FSEntry)
    (opts : ImportOptions) (h : opts.dryRun = true) :
    ((executeImport md2html parseMeta s source opts).1.countP Ev.isCreateOrUpdate = 0)
    ∧ (executeImport md2html parseMeta s source opts).2 = s := by
  cases source with
  | file n c =>
    simp [executeImport, importFile, h, getTargetBook_dryRun]
  | dir n entries =>
    have hsp := subdirPass_dryRun md2html parseMeta 1 opts h entries s
    have h1 := rootPass_dryRun_noCU md2html 1 opts h entries
    constructor
    · simp only [executeImport, importDirectory_dryRun md2html parseMeta s n entries opts h,
        h, eq_self_iff_true, if_true, List.nil_append, List.countP_append]
      omega
    · simp only [executeImport, importDirectory_dryRun md2html parseMeta s n entries opts h]
      exact hsp.1

/-- Witness for C2 at a concrete directory tree and dry-run options. -/
theorem dry_run_issues_no_writes_witness :
    ((executeImport (fun t => t) (fun _ => none) ⟨[], [], 1⟩
        (FSEntry.dir "docs" [FSEntry.file "a.md" "hi", FSEntry.dir "c" [FSEntry.file "b.md" "y"]])
        { dryRun := true }).1.countP Ev.isCreateOrUpdate = 0)
    ∧ (executeImport (fun t => t) (fun _ => none) ⟨[], [], 1⟩
        (FSEntry.dir "docs" [FSEntry.file "a.md" "hi", FSEntry.dir "c" [FSEntry.file "b.md" "y"]])
        { dryRun := true }).2 = ⟨[], [], 1⟩ :=
  dry_run_issues_no_writes (fun t => t) (fun _ => none) ⟨[], [], 1⟩
    (FSEntry.dir "docs" [FSEntry.file "a.md" "hi", FSEntry.dir "c" [FSEntry.file "b.md" "y"]])
    { dryRun := true } rfl

/-! ## Flatten-mode lemmas -/

theorem getTargetBook_trace_forms (s : Remote) (bookName : String) (dryRun : Bool) :
    ∀ e ∈ (getTargetBook s bookName dryRun).2.2,
      e.isCreateChapter = false ∧ e.isBookLevel = true := by
  unfold getTargetBook
  split
  · intro e he; cases he
  · by_cases hn : isNumericStr bookName = true
    · simp only [hn, if_true]
      cases hgb : getBookById s (parseNatStr bookName) with
      | some b => simp [Ev.isCreateChapter, Ev.isBookLevel]
      | none =>
        cases hfb : findBookByName s bookName <;>
          simp [hfb, Ev.isCreateChapter, Ev.isBookLevel]
    · simp only [hn, if_false]
      cases hfb : findBookByName s bookName <;>
        simp [hfb, Ev.isCreateChapter, Ev.isBookLevel]

theorem createPageEvents_noCC (md2html : String → String) (bookId : Nat)
    (chapter : Option Nat) (path : List String) (displayName content : String)
    (opts : ImportOptions) :
    (createPageEvents md2html bookId chapter path displayName content opts).countP
      Ev.isCreateChapter = 0 := by
  unfold createPageEvents
  split <;> simp [Ev.isCreateChapter, List.countP_cons]

theorem createPageEvents_bookLevel (md2html : String → String) (bookId : Nat)
    (path : List String) (displayName content : String) (opts : ImportOptions) :
    (createPageEvents md2html bookId none path displayName content opts).all
      Ev.isBookLevel = true := by
  unfold createPageEvents buildPage
  split <;> simp [Ev.isBookLevel]

theorem rootPass_noCC (md2html : String → String) (bookId : Nat) (opts : ImportOptions)
    (entries : List FSEntry) :
    (rootPass md2html bookId opts entries).countP Ev.isCreateChapter = 0 := by
  induction entries with
  | nil => rfl
  | cons e es ih =>
    cases e with
    | file n c =>
      by_cases hs : isSupportedFile n = true <;>
        simp [rootPass, hs, List.countP_append, createPageEvents_noCC, ih]
    | dir n sub => simpa [rootPass] using ih

theorem rootPass_bookLevel (md2html : String → String) (bookId : Nat) (opts : ImportOptions)
    (entries : List FSEntry) :
    (rootPass md2html bookId opts entries).all Ev.isBookLevel = true := by
  induction entries with
  | nil => rfl
  | cons e es ih =>
    cases e with
    | file n c =>
      by_cases hs : isSupportedFile n = true <;>
        simp [rootPass, hs, List.all_append, createPageEvents_bookLevel, ih]
    | dir n sub => simpa [rootPass] using ih

theorem pagesFromWalk_noCC (md2html : String → String) (bookId : Nat)
    (chapter : Option Nat) (opts : ImportOptions) (ws : List WFile) :
    (pagesFromWalk md2html bookId chapter opts ws).countP Ev.isCreateChapter = 0 := by
  induction ws with
  | nil => rfl
  | cons w ws ih =>
    by_cases hs : isSupportedFile w.name = true <;>
      simp [pagesFromWalk, hs, List.countP_append, createPageEvents_noCC, ih]

theorem pagesFromWalk_bookLevel (md2html : String → String) (bookId : Nat)
    (opts : ImportOptions) (ws : List WFile) :
    (pagesFromWalk md2html bookId none opts ws).all Ev.isBookLevel = true := by
  induction ws with
  | nil => rfl
  | cons w ws ih =>
    by_cases hs : isSupportedFile w.name = true <;>
      simp [pagesFromWalk, hs, List.all_append, createPageEvents_bookLevel, ih]

theorem subdirPass_flatten (md2html : String → String) (parseMeta : String → Option Meta)
    (bookId : Nat) (opts : ImportOptions) (hf : opts.flatten = true)
    (entries : List FSEntry) : ∀ s : Remote,
    ((subdirPass md2html parseMeta bookId opts entries s).1.countP Ev.isCreateChapter = 0)
    ∧ ((subdirPass md2html parseMeta bookId opts entries s).1.all Ev.isBookLevel = true) := by
  induction entries with
  | nil => intro s; exact ⟨rfl, rfl⟩
  | cons e es ih =>
    intro s
    cases e with
    | file n c =>
      have := ih s
      simpa [subdirPass, subdirStep] using this
    | dir dname sub =>
      have hstate : (subdirStep md2html parseMeta bookId opts (.dir dname sub) s).2 = s := by
        simp [subdirStep, hf]
      have hev : (subdirStep md2html parseMeta bookId opts (.dir dname sub) s).1
          = pagesFromWalk md2html bookId none opts
              (walkFiles [dname] (effMaxDepth opts - 1) sub) := by
        simp [subdirStep, hf]
      constructor
      · show ((subdirStep md2html parseMeta bookId opts (.dir dname sub) s).1
            ++ (subdirPass md2html parseMeta bookId opts es
                  (subdirStep md2html parseMeta bookId opts (.dir dname sub) s).2).1).countP
              Ev.isCreateChapter = 0
        rw [List.countP_append, hstate, hev, pagesFromWalk_noCC, (ih s).1]
      · show ((subdirStep md2html parseMeta bookId opts (.dir dname sub) s).1
            ++ (subdirPass md2html parseMeta bookId opts es
                  (subdirStep md2html parseMeta bookId opts (.dir dname sub) s).2).1).all
              Ev.isBookLevel = true
        rw [List.all_append, hstate, hev, pagesFromWalk_bookLevel, (ih s).2]
        decide

/-- **C3.** For every input directory tree containing at least one
subdirectory, an import run with the flatten option set never calls
`createChapter` (no Chapter is ever created), and all pages it mentions are
Book-level (no `chapter_id`). -/
theorem flatten_never_creates_chapter (md2html : String → String)
    (parseMeta : String → Option Meta) (s : Remote) (dirName : String)
    (entries : List FSEntry) (opts : ImportOptions) (hf : opts.flatten = true)
    (hd : entries.any FSEntry.isDir = true) :
    ((importDirectory md2html parseMeta s dirName entries opts).1.countP
        Ev.isCreateChapter = 0)
    ∧ ((importDirectory md2html parseMeta s dirName entries opts).1.all
        Ev.isBookLevel = true) := by
  have htb := getTargetBook_trace_forms s
    (jsOr opts.book (jsOr ((truthyO (readBookMetadata parseMeta entries).name).getD "") dirName))
    opts.dryRun
  have hsp := subdirPass_flatten md2html parseMeta
    (getTargetBook s
      (jsOr opts.book (jsOr ((truthyO (readBookMetadata parseMeta entries).name).getD "") dirName))
      opts.dryRun).1.id opts hf entries
  constructor
  · simp only [importDirectory, List.countP_append]
    have h1 : (getTargetBook s
        (jsOr opts.book (jsOr ((truthyO (readBookMetadata parseMeta entries).name).getD "") dirName))
        opts.dryRun).2.2.countP Ev.isCreateChapter = 0 := by
      rw [List.countP_eq_zero]
      intro e he
      simp [(htb e he).1]
    have h2 : ∀ b : Bool, (if b = true
        then [Ev.updateBook (getTargetBook s
          (jsOr opts.book (jsOr ((truthyO (readBookMetadata parseMeta entries).name).getD "") dirName))
          opts.dryRun).1.id] else []).countP Ev.isCreateChapter = 0 := by
      intro b; cases b <;> simp [Ev.isCreateChapter]
    rw [h1, h2, rootPass_noCC, (hsp _).1]
  · simp only [importDirectory, List.all_append]
    have h1 : (getTargetBook s
        (jsOr opts.book (jsOr ((truthyO (readBookMetadata parseMeta entries).name).getD "") dirName))
        opts.dryRun).2.2.all Ev.isBookLevel = true := by
      rw [List.all_eq_true]
      intro e he
      exact (htb e he).2
    have h2 : ∀ b : Bool, (if b = true
        then [Ev.updateBook (getTargetBook s
          (jsOr opts.book (jsOr ((truthyO (readBookMetadata parseMeta entries).name).getD "") dirName))
          opts.dryRun).1.id] else []).all Ev.isBookLevel = true := by
      intro b; cases b <;> simp [Ev.isBookLevel]
    rw [h1, h2, rootPass_bookLevel, (hsp _).2]
    decide

/-- Witness for C3 at a concrete tree (with a subdirectory) and flatten
options. -/
theorem flatten_never_creates_chapter_witness :
    ((importDirectory (fun t => t) (fun _ => none) ⟨[], [], 1⟩ "root"
        [FSEntry.file "a.md" "x", FSEntry.dir "sub" [FSEntry.file "b.md" "y"]]
        { flatten := true }).1.countP Ev.isCreateChapter = 0)
    ∧ ((importDirectory (fun t => t) (fun _ => none) ⟨[], [], 1⟩ "root"
        [FSEntry.file "a.md" "x", FSEntry.dir "sub" [FSEntry.file "b.md" "y"]]
        { flatten := true }).1.all Ev.isBookLevel = true) :=
  flatten_never_creates_chapter (fun t => t) (fun _ => none) ⟨[], [], 1⟩ "root"
    [FSEntry.file "a.md" "x", FSEntry.dir "sub" [FSEntry.file "b.md" "y"]]
    { flatten := true } rfl rfl

/-! ## Walker depth lemmas -/

theorem walkList_zero (pre : List String) (es : List FSEntry) :
    walkList pre 0 es
      = es.filterMap (fun e =>
          match e with
          | .file n c => some ⟨pre, n, c⟩
          | .dir _ _ => none) := by
  induction es with
  | nil => rfl
  | cons e es ih => cases e <;> simp [walkList, walkEntry, ih]

theorem wPaths_neg1 (dname : String) (sub : List FSEntry) :
    wPaths (-1) dname sub
      = sub.filterMap (fun e =>
          match e with
          | .file n _ => if isSupportedFile n then some [dname, n] else none
          | .dir _ _ => none) := by
  unfold wPaths walkFiles
  rw [show ((-1 : Int)).toNat = 0 from rfl, walkList_zero]
  induction sub with
  | nil => rfl
  | cons e es ih =>
    cases e with
    | file n c =>
      by_cases hs : isSupportedFile n = true <;>
        simp [List.filterMap_cons, hs, ih]
    | dir n2 s2 => simpa [List.filterMap_cons] using ih

theorem mem_dirsPaths_of (d : Int) (entries : List FSEntry) (dname : String)
    (sub : List FSEntry) (hmem : FSEntry.dir dname sub ∈ entries) (p : List String)
    (hp : p ∈ wPaths d dname sub) : p ∈ dirsPaths d entries := by
  induction entries with
  | nil => cases hmem
  | cons e es ih =>
    rcases List.mem_cons.mp hmem with heq | hmem2
    · cases heq
      simp only [dirsPaths, List.mem_append]
      exact Or.inl hp
    · cases e with
      | file n c => simpa [dirsPaths] using ih hmem2
      | dir n2 s2 =>
        simp only [dirsPaths, List.mem_append]
        exact Or.inr (ih hmem2)

theorem rootPaths_mem_length (entries : List FSEntry) :
    ∀ p ∈ rootPaths entries, p.length = 1 := by
  induction entries with
  | nil => intro p hp; cases hp
  | cons e es ih =>
    intro p hp
    cases e with
    | file n c =>
      by_cases hs : isSupportedFile n = true
      · rcases List.mem_cons.mp (by simpa [rootPaths, hs] using hp) with heq | hmem
        · subst heq; rfl
        · exact ih p hmem
      · exact ih p (by simpa [rootPaths, hs] using hp)
    | dir n sub => exact ih p (by simpa [rootPaths] using hp)

theorem dirsPaths_neg1_mem_length (entries : List FSEntry) :
    ∀ p ∈ dirsPaths (-1) entries, p.length = 2 := by
  induction entries with
  | nil => intro p hp; cases hp
  | cons e es ih =>
    intro p hp
    cases e with
    | file n c => exact ih p (by simpa [dirsPaths] using hp)
    | dir dname sub =>
      rcases List.mem_append.mp (by simpa [dirsPaths] using hp) with h1 | h1
      · rw [wPaths_neg1] at h1
        rcases List.mem_filterMap.mp h1 with ⟨a, _, ha⟩
        cases a with
        | file n2 c2 =>
          by_cases hs : isSupportedFile n2 = true
          · simp only [hs, if_true] at ha
            cases ha; rfl
          · simp [hs] at ha
        | dir _ _ => simp at ha
      · exact ih p h1

/-- **C4.** When `maxDepth = 0`, for every tree: every supported file located
directly inside a first-level subdirectory is still emitted (a Page-creation
invocation for it occurs, at walker path `[dname, n]`), and no file from any
folder nested deeper than a first-level subdirectory is emitted (every
Page-creation path has at most two segments). -/
theorem maxDepth_zero_first_level (md2html : String → String)
    (parseMeta : String → Option Meta) (s : Remote) (dirName : String)
    (entries : List FSEntry) (opts : ImportOptions) (h : opts.maxDepth = some 0) :
    (∀ dname sub, FSEntry.dir dname sub ∈ entries →
      ∀ n c, FSEntry.file n c ∈ sub → isSupportedFile n = true →
        [dname, n] ∈ pageFnPaths (importDirectory md2html parseMeta s dirName entries opts).1)
    ∧ (∀ p ∈ pageFnPaths (importDirectory md2html parseMeta s dirName entries opts).1,
        p.length ≤ 2) := by
  have hpaths := pageFnPaths_importDirectory md2html parseMeta s dirName entries opts
  have hd : effMaxDepth opts - 1 = -1 := by simp [effMaxDepth, h]
  rw [hd] at hpaths
  constructor
  · intro dname sub hmem n c hf hs
    rw [hpaths]
    refine List.mem_append_right _ ?_
    refine mem_dirsPaths_of (-1) entries dname sub hmem _ ?_
    rw [wPaths_neg1]
    exact List.mem_filterMap.mpr ⟨.file n c, hf, by simp [hs]⟩
  · intro p hp
    rw [hpaths] at hp
    rcases List.mem_append.mp hp with h1 | h1
    · simp [rootPaths_mem_length entries p h1]
    · simp [dirsPaths_neg1_mem_length entries p h1]

/-- Witness for C4: with `maxDepth = 0`, the file `d/a.md` directly inside the
first-level subdirectory `d` is emitted. -/
theorem maxDepth_zero_first_level_witness :
    ["d", "a.md"] ∈ pageFnPaths (importDirectory (fun t => t) (fun _ => none)
      ⟨[], [], 1⟩ "root"
      [FSEntry.dir "d" [FSEntry.file "a.md" "x", FSEntry.dir "e" [FSEntry.file "b.md" "y"]]]
      { maxDepth := some 0 }).1 :=
  (maxDepth_zero_first_level (fun t => t) (fun _ => none) ⟨[], [], 1⟩ "root"
      [FSEntry.dir "d" [FSEntry.file "a.md" "x", FSEntry.dir "e" [FSEntry.file "b.md" "y"]]]
      { maxDepth := some 0 } rfl).1
    "d" [FSEntry.file "a.md" "x", FSEntry.dir "e" [FSEntry.file "b.md" "y"]]
    (List.Mem.head _) "a.md" "x" (List.Mem.head _) (by decide)

/-- **C5 (counterexample).** The claim asserts that files inside folders
nested beyond the walker's depth budget are still emitted, flattened into the
nearest in-budget chapter.  At the concrete input below the walker with an
exhausted budget (`walkFiles` at depth `-1`, i.e. `maxDepth = 0`) emits
nothing from the subdirectory `B`, dropping `x.md`; accordingly, a full
`importDirectory` run over `A/B/x.md` with `maxDepth = 0` performs no
Page-creation invocation at all — the file is not attributed to chapter `A`. -/
theorem depth_budget_files_dropped_counterexample :
    walkFiles ["A"] (-1) [FSEntry.dir "B" [FSEntry.file "x.md" "hi"]] = []
    ∧ pageFnPaths (importDirectory (fun t => t) (fun _ => none) ⟨[], [], 1⟩ "root"
        [FSEntry.dir "A" [FSEntry.dir "B" [FSEntry.file "x.md" "hi"]]]
        { maxDepth := some 0 }).1 = [] := by
  constructor
  · rfl
  · decide

/-- **C5 (amended).** When the walker's remaining depth reaches 0 it does not
descend into subdirectories but still emits the files at that level: the walk
at depth 0 returns exactly the files of the current listing (every emitted
file sits directly at the walk's current directory).  Files inside folders
nested beyond the budget are dropped, not emitted. -/
theorem depth_zero_emits_level_files_only (pre : List String) (es : List FSEntry) :
    (walkList pre 0 es
      = es.filterMap (fun e =>
          match e with
          | .file n c => some ⟨pre, n, c⟩
          | .dir _ _ => none))
    ∧ (∀ w ∈ walkList pre 0 es, w.dirPath = pre) := by
  refine ⟨walkList_zero pre es, ?_⟩
  intro w hw
  rw [walkList_zero pre es] at hw
  rcases List.mem_filterMap.mp hw with ⟨a, _, ha⟩
  cases a with
  | file n c => cases ha; rfl
  | dir _ _ => simp at ha

/-! ## Idempotence of the Remote Reconciler -/

theorem getTargetBook_idem (s : Remote) (name : String) :
    ((getTargetBook (getTargetBook s name false).2.1 name false).1.id
      = (getTargetBook s name false).1.id)
    ∧ ((getTargetBook (getTargetBook s name false).2.1 name false).2.2).countP
        Ev.isCreate = 0 := by
  by_cases hn : isNumericStr name = true
  · cases hgb : getBookById s (parseNatStr name) with
    | some b =>
      have h1 : getTargetBook s name false = (b, s, [Ev.getBook (parseNatStr name)]) := by
        simp [getTargetBook, hn, hgb]
      constructor <;> simp [h1, Ev.isCreate]
    | none =>
      cases hfb : findBookByName s name with
      | some b =>
        have h1 : getTargetBook s name false
            = (b, s, [Ev.getBook (parseNatStr name), Ev.getBooks]) := by
          simp [getTargetBook, hn, hgb, hfb]
        constructor <;> simp [h1, getTargetBook, hn, hgb, hfb, Ev.isCreate]
      | none =>
        set B : RBook :=
          { id := s.nextId, name := name, slug := slugify name,
            description := importBookDesc } with hB
        set s2 : Remote := { s with books := s.books ++ [B], nextId := s.nextId + 1 } with hs2
        have h1 : getTargetBook s name false
            = (B, s2, [Ev.getBook (parseNatStr name), Ev.getBooks,
                Ev.createBook name importBookDesc]) := by
          simp [getTargetBook, hn, hgb, hfb, createBookOp, hB, hs2]
        have hfind : getBookById s (parseNatStr name) = none → findBookByName s name = none →
            True := fun _ _ => trivial
        by_cases hid : s.nextId = parseNatStr name
        · have h2 : getBookById s2 (parseNatStr name) = some B := by
            unfold getBookById at hgb ⊢
            simp only [hs2]
            rw [List.find?_append, hgb]
            simp [hB, hid]
          have h3 : getTargetBook s2 name false = (B, s2, [Ev.getBook (parseNatStr name)]) := by
            simp [getTargetBook, hn, h2]
          constructor <;> simp [h1, h3, Ev.isCreate]
        · have h2 : getBookById s2 (parseNatStr name) = none := by
            unfold getBookById at hgb ⊢
            simp only [hs2]
            rw [List.find?_append, hgb]
            simp [hB, hid]
          have h4 : findBookByName s2 name = some B := by
            unfold findBookByName at hfb ⊢
            simp only [hs2]
            rw [List.find?_append, hfb]
            simp [hB]
          have h3 : getTargetBook s2 name false
              = (B, s2, [Ev.getBook (parseNatStr name), Ev.getBooks]) := by
            simp [getTargetBook, hn, h2, h4]
          constructor <;> simp [h1, h3, Ev.isCreate]
  · cases hfb : findBookByName s name with
    | some b =>
      have h1 : getTargetBook s name false = (b, s, [Ev.getBooks]) := by
        simp [getTargetBook, hn, hfb]
      constructor <;> simp [h1, getTargetBook, hn, hfb, Ev.isCreate]
    | none =>
      set B : RBook :=
        { id := s.nextId, name := name, slug := slugify name,
          description := importBookDesc } with hB
      set s2 : Remote := { s with books := s.books ++ [B], nextId := s.nextId + 1 } with hs2
      have h1 : getTargetBook s name false
          = (B, s2, [Ev.getBooks, Ev.createBook name importBookDesc]) := by
        simp [getTargetBook, hn, hfb, createBookOp, hB, hs2]
      have h4 : findBookByName s2 name = some B := by
        unfold findBookByName at hfb ⊢
        simp only [hs2]
        rw [List.find?_append, hfb]
        simp [hB]
      have h3 : getTargetBook s2 name false = (B, s2, [Ev.getBooks]) := by
        simp [getTargetBook, hn, h4]
      constructor <;> simp [h1, h3, Ev.isCreate]

theorem getOrCreateChapter_idem (s : Remote) (bookId : Nat) (name description : String) :
    ((getOrCreateChapter (getOrCreateChapter s bookId name description false).2.1
        bookId name description false).1.id
      = (getOrCreateChapter s bookId name description false).1.id)
    ∧ ((getOrCreateChapter (getOrCreateChapter s bookId name description false).2.1
        bookId name description false).2.2).countP Ev.isCreate = 0 := by
  cases hfc : (getChapters s bookId).find? (fun c => sToLower c.name = sToLower name) with
  | some c =>
    have h1 : getOrCreateChapter s bookId name description false
        = (c, s, [Ev.getChapters bookId]) := by
      simp [getOrCreateChapter, hfc]
    constructor <;> simp [h1, getOrCreateChapter, hfc, Ev.isCreate]
  | none =>
    set C : RChapter :=
      { id := s.nextId, book_id := bookId, name := name, description := description } with hC
    set s2 : Remote := { s with chapters := s.chapters ++ [C], nextId := s.nextId + 1 } with hs2
    have h1 : getOrCreateChapter s bookId name description false
        = (C, s2, [Ev.getChapters bookId, Ev.createChapter bookId name]) := by
      simp [getOrCreateChapter, hfc, createChapterOp, hC, hs2]
    have hch : getChapters s2 bookId = getChapters s bookId ++ [C] := by
      unfold getChapters
      simp only [hs2]
      rw [List.filter_append]
      simp [hC]
    have hfind : (getChapters s2 bookId).find? (fun c => sToLower c.name = sToLower name)
        = some C := by
      rw [hch, List.find?_append, hfc]
      simp [hC]
    have h3 : getOrCreateChapter s2 bookId name description false
        = (C, s2, [Ev.getChapters bookId]) := by
      simp [getOrCreateChapter, hfind]
    constructor <;> simp [h1, h3, Ev.isCreate]

/-- **C6.** `getOrCreateBook` (`getTargetBook`) and `getOrCreateChapter` are
idempotent outside dry-run: calling the operation twice with the same name,
where the second call runs against the remote state left by the first (so the
first call's creation is reflected), yields the same entity id both times, and
the second invocation issues no create call on the transport client. -/
theorem reconcilers_idempotent (s : Remote) (bookName : String) (bookId : Nat)
    (chapterName chapterDesc : String) :
    (((getTargetBook (getTargetBook s bookName false).2.1 bookName false).1.id
        = (getTargetBook s bookName false).1.id)
      ∧ ((getTargetBook (getTargetBook s bookName false).2.1 bookName false).2.2).countP
          Ev.isCreate = 0)
    ∧ (((getOrCreateChapter (getOrCreateChapter s bookId chapterName chapterDesc false).2.1
          bookId chapterName chapterDesc false).1.id
        = (getOrCreateChapter s bookId chapterName chapterDesc false).1.id)
      ∧ ((getOrCreateChapter (getOrCreateChapter s bookId chapterName chapterDesc false).2.1
          bookId chapterName chapterDesc false).2.2).countP Ev.isCreate = 0) :=
  ⟨getTargetBook_idem s bookName, getOrCreateChapter_idem s bookId chapterName chapterDesc⟩

/-- **C7.** For every book identifier string consisting only of digits,
`getTargetBook` attempts the numeric id lookup first (the first transport call
is `getBook id`); a failed id lookup is swallowed and treated as not-found,
falling back to the case-insensitive name-or-slug search over all existing
books (`findBookByName`); if that also misses, a new book is created with the
default generated description. -/
theorem numeric_book_lookup_fallback (s : Remote) (bookName : String)
    (hnum : isNumericStr bookName = true) :
    ((getTargetBook s bookName false).2.2.head?
        = some (Ev.getBook (parseNatStr bookName)))
    ∧ (getBookById s (parseNatStr bookName) = none →
        (getTargetBook s bookName false).1
          = (match findBookByName s bookName with
             | some b => b
             | none => { id := s.nextId, name := bookName, slug := slugify bookName,
                         description := importBookDesc })) := by
  constructor
  · cases hgb : getBookById s (parseNatStr bookName) with
    | some b => simp [getTargetBook, hnum, hgb]
    | none => cases hfb : findBookByName s bookName <;> simp [getTargetBook, hnum, hgb, hfb]
  · intro hgb
    cases hfb : findBookByName s bookName <;>
      simp [getTargetBook, hnum, hgb, hfb, createBookOp]

/-- Witness for C7 at the numeric name `"5"` against a store with no books:
the trace starts with the id lookup, and the result is the freshly created
book with the default description. -/
theorem numeric_book_lookup_fallback_witness :
    ((getTargetBook ⟨[], [], 7⟩ "5" false).2.2.head?
        = some (Ev.getBook (parseNatStr "5")))
    ∧ ((getTargetBook ⟨[], [], 7⟩ "5" false).1
        = { id := 7, name := "5", slug := slugify "5", description := importBookDesc }) :=
  ⟨(numeric_book_lookup_fallback ⟨[], [], 7⟩ "5" (by decide)).1, by
    have h := (numeric_book_lookup_fallback ⟨[], [], 7⟩ "5" (by decide)).2 (by decide)
    exact h⟩

/-! ## README name derivation -/

/-- The amended candidate scan, following the spec's wording: the derived name
is the extraction (first level 1–3 heading, else first non-blank line) of the
first candidate, in the fixed order, that is present and whose content yields
something; absent candidates and present-but-empty candidates are skipped, and
the result is `none` exactly when no candidate yields anything. -/
def deriveNameSpec (entries : List FSEntry) : Option String :=
  (readmeCandidates.filterMap (fun cand => (findFile entries cand).bind extractName)).head?

theorem deriveAux_eq_scan (entries : List FSEntry) : ∀ cs : List String,
    deriveAux entries cs
      = (cs.filterMap (fun cand => (findFile entries cand).bind extractName)).head? := by
  intro cs
  induction cs with
  | nil => rfl
  | cons cand cs ih =>
    cases hf : findFile entries cand with
    | none => simp [deriveAux, hf, ih]
    | some content =>
      cases he : extractName content with
      | none => simp [deriveAux, hf, he, ih]
      | some v => simp [deriveAux, hf, he]

/-- **C8 (counterexample).** The claim asserts that when the first present
candidate (here `README.md`, empty: no heading, no non-blank line) yields
nothing, no later candidate supplies the name, so the result is `undefined`.
In fact the source loop falls through, and the later candidate `index.md`
supplies the name. -/
theorem readme_fallthrough_counterexample :
    deriveNameFromReadme [FSEntry.file "README.md" "", FSEntry.file "index.md" "Hello"]
      = some "Hello" := by decide

/-- **C8 (amended).** `deriveNameFromReadme` scans the fixed ordered candidate
list (`README.md`, `Readme.md`, `readme.md`, `index.md`); for each candidate
present it extracts the first level-1 heading, else level-2, else level-3,
else the first non-blank line; a present candidate that yields nothing falls
through to the next candidate, and the result is `undefined` exactly when no
candidate file yields anything (in particular when none exists or all are
empty). -/
theorem deriveName_matches_spec_scan (entries : List FSEntry) :
    (deriveNameFromReadme entries = deriveNameSpec entries)
    ∧ (deriveNameFromReadme entries = none ↔
        ∀ cand ∈ readmeCandidates, (findFile entries cand).bind extractName = none) := by
  have hscan : deriveNameFromReadme entries = deriveNameSpec entries :=
    deriveAux_eq_scan entries readmeCandidates
  constructor
  · exact hscan
  · rw [hscan]
    unfold deriveNameSpec
    constructor
    · intro h cand hc
      have hnil := List.head?_eq_none_iff.mp h
      by_contra hne
      rcases Option.ne_none_iff_exists.mp hne with ⟨v, hv⟩
      have : v ∈ (readmeCandidates.filterMap
          (fun cand => (findFile entries cand).bind extractName)) :=
        List.mem_filterMap.mpr ⟨cand, hc, hv.symm⟩
      rw [hnil] at this
      cases this
    · intro h
      rw [List.head?_eq_none_iff]
      rw [List.filterMap_eq_nil_iff]
      exact h

/-- **C9.** Exporting the contents of a Book with slug `docbook` containing
one top-level Page (`id=101`, slug `intro`) and one Chapter (`id=201`, slug
`ch-one`) with one nested Page (`id=301`, slug `pg-a`), in markdown format
with no output directory given, writes exactly the files
`./docbook/intro-101.md` and `./docbook/ch-one-201/pg-a-301.md`. -/
theorem export_scenario_paths :
    exportPaths
      { id := 7, slug := "docbook", name := "Doc Book",
        contents := [ExItem.page ⟨101, "intro", "Intro"⟩,
                     ExItem.chapter 201 "ch-one" "Chapter One" [⟨301, "pg-a", "Page A"⟩]] }
      "" "markdown"
      = ["./docbook/intro-101.md", "./docbook/ch-one-201/pg-a-301.md"] := by decide

/-- **C10.** In the single-file import path, when `options.format` is not
provided the content is converted as markdown regardless of the file's name or
extension — `detectFormat` is not consulted, so the page body is the markdown
transform of the content (never the html pass-through) — and the page's
markdown field is `undefined`; moreover the markdown field is set only when
`options.format` is explicitly the string `markdown`. -/
theorem importFile_defaults_markdown (md2html : String → String) (bookId : Nat)
    (fileName content : String) (opts : ImportOptions) (h : opts.format = "") :
    ((importFilePageData md2html bookId fileName content opts).html = md2html content)
    ∧ ((importFilePageData md2html bookId fileName content opts).markdown = none)
    ∧ (∀ opts2 : ImportOptions,
        (importFilePageData md2html bookId fileName content opts2).markdown ≠ none →
          opts2.format = "markdown") := by
  refine ⟨?_, ?_, ?_⟩
  · simp [importFilePageData, convertToHtml, jsOr, h]
  · simp [importFilePageData, h]
  · intro opts2 hmd
    by_cases hf : opts2.format = "markdown"
    · exact hf
    · simp [importFilePageData, hf] at hmd

/-- Witness for C10: a file named `page.html` imported without an explicit
format gets the markdown transform of its content and no markdown field. -/
theorem importFile_defaults_markdown_witness :
    ((importFilePageData (fun t => "<p>" ++ t ++ "</p>") 1 "page.html" "hi" {}).html
        = "<p>hi</p>")
    ∧ ((importFilePageData (fun t => "<p>" ++ t ++ "</p>") 1 "page.html" "hi" {}).markdown
        = none) :=
  ⟨(importFile_defaults_markdown (fun t => "<p>" ++ t ++ "</p>") 1 "page.html" "hi" {} rfl).1,
   (importFile_defaults_markdown (fun t => "<p>" ++ t ++ "</p>") 1 "page.html" "hi" {} rfl).2.1⟩
